import Mathlib

/-!
Verification development for the circuit/component data model and the
plugin mechanism of the Integrated-Circuit-Simulation-Platform.

The C++ core is shallowly embedded: `double` arithmetic is modelled by `ℚ`
(the update laws use only field operations), `std::shared_ptr<Node>` by a
natural-number reference into an explicit heap (an association list from
references to `Node` values, so that aliasing between a `Circuit`'s node map
and a `Component`'s terminal list is represented faithfully), and `std::map`
by a key-sorted association list with last-write-wins insertion.
`std::exp` is an uninterpreted parameter `rexp` threaded through the
component step functions.
-/

set_option autoImplicit false

namespace ICSim

/-- Embeds `ic_sim::Node` (circuit.h): id, voltage (initially 0), and the
advisory back-reference list filled by `Node::addComponent` (component ids
stand in for the `weak_ptr` back-references). -/
structure Node where
  id : String
  voltage : ℚ
  connectedComponents : List String
deriving Repr, DecidableEq

/-- Constructor `Node(id)`: voltage 0, no back-references. -/
def Node.make (id : String) : Node := ⟨id, 0, []⟩

/-- Embeds `Node::setVoltage`: unconditional overwrite. -/
def Node.setVoltage (n : Node) (v : ℚ) : Node := { n with voltage := v }

/-- Embeds `Node::addComponent`: push_back of a back-reference; duplicates permitted. -/
def Node.addComponent (n : Node) (cid : String) : Node :=
  { n with connectedComponents := n.connectedComponents ++ [cid] }

/-- The node heap: memory holding the `Node` objects, addressed by
references (model of `shared_ptr<Node>` identity). -/
abbrev Heap := List (ℕ × Node)

/-- Dereference a node pointer. -/
def heapGet (h : Heap) (r : ℕ) : Option Node :=
  (h.find? (fun p => decide (p.1 = r))).map Prod.snd

/-- Reads `node->getVoltage()` through a reference (0 for a dangling reference,
which cannot arise from the modelled operations). -/
def heapVoltage (h : Heap) (r : ℕ) : ℚ :=
  (heapGet h r).elim 0 Node.voltage

/-- Performs `node->setVoltage(v)` through a reference: updates the pointed-to node. -/
def heapSetVoltage (h : Heap) (r : ℕ) (v : ℚ) : Heap :=
  h.map (fun p => if p.1 = r then (p.1, p.2.setVoltage v) else p)

/-- Performs `node->addComponent(c)` through a reference. -/
def heapAddBackRef (h : Heap) (r : ℕ) (cid : String) : Heap :=
  h.map (fun p => if p.1 = r then (p.1, p.2.addComponent cid) else p)

/-- The variant-specific data members of the four concrete `Component`
classes: `Resistor` (circuit.h), `Capacitor` (circuit.h), and the
plugin-supplied `Inductor` and `Diode` (example_plugin.cpp). -/
inductive CompState where
  | resistor (resistance current : ℚ)
  | capacitor (capacitance charge voltage : ℚ)
  | inductor (inductance current voltage : ℚ)
  | diode (forwardVoltage current : ℚ)
deriving Repr, DecidableEq

/-- Embeds the `ic_sim::Component` base-class state (`id_`, `nodes_`)
together with the concrete subclass data. -/
structure Component where
  id : String
  nodes : List ℕ
  state : CompState
deriving Repr, DecidableEq

/-- Embeds `getCurrentValue()` of each variant: `Resistor` returns `current_`,
`Capacitor` returns `voltage_` (not the current), `Inductor` returns
`current_`, `Diode` returns `current_`. -/
def Component.getCurrentValue (c : Component) : ℚ :=
  match c.state with
  | .resistor _ i => i
  | .capacitor _ _ v => v
  | .inductor _ i _ => i
  | .diode _ i => i

/-- Embeds `getType()` of each variant. -/
def Component.getType (c : Component) : String :=
  match c.state with
  | .resistor _ _ => "Resistor"
  | .capacitor _ _ _ => "Capacitor"
  | .inductor _ _ _ => "Inductor"
  | .diode _ _ => "Diode"

/-- Reads `nodes_[i]->getVoltage()`: read the voltage of the i-th attached node
(only used under the `nodes_.size() >= 2` guard, where the index is valid). -/
def terminalVoltage (h : Heap) (c : Component) (i : ℕ) : ℚ :=
  (c.nodes.get? i).elim 0 (heapVoltage h)

/-- The four `simulate(timestep)` overrides, translated body by body.
Each reads the attached nodes' voltages from the heap and returns only the
updated component: no override calls `setVoltage`, so no heap is returned.
`rexp` stands for `std::exp` (used only by `Diode`). -/
def Component.simulate (rexp : ℚ → ℚ) (h : Heap) (dt : ℚ) (c : Component) : Component :=
  match c.state with
  | .resistor r _ =>
      if 2 ≤ c.nodes.length then
        { c with state := .resistor r ((terminalVoltage h c 0 - terminalVoltage h c 1) / r) }
      else c
  | .capacitor cap q v =>
      if 2 ≤ c.nodes.length then
        let newVoltage := terminalVoltage h c 0 - terminalVoltage h c 1
        { c with state := .capacitor cap (q + cap * (newVoltage - v) / dt * dt) newVoltage }
      else c
  | .inductor l i _ =>
      if 2 ≤ c.nodes.length then
        let dv := terminalVoltage h c 0 - terminalVoltage h c 1
        { c with state := .inductor l (i + dv * dt / l) dv }
      else c
  | .diode vf _ =>
      if 2 ≤ c.nodes.length then
        let dv := terminalVoltage h c 0 - terminalVoltage h c 1
        let i := if vf < dv then (1 / 10 ^ 12) * (rexp (dv / (26 / 1000)) - 1) else -(1 / 10 ^ 12)
        { c with state := .diode vf i }
      else c

/-- Embeds `Component::connect(node)` (identical in all four variants): appends the
node reference to `nodes_` and registers the component id as a
back-reference on the node. -/
def Component.connect (c : Component) (r : ℕ) (h : Heap) : Component × Heap :=
  ({ c with nodes := c.nodes ++ [r] }, heapAddBackRef h r c.id)

/-- Embeds the `std::map::operator[]` assignment: key-sorted insert, overwriting an
existing binding (last write wins). -/
def mapInsert {α : Type} (k : String) (v : α) : List (String × α) → List (String × α)
  | [] => [(k, v)]
  | (k', v') :: rest =>
      if k < k' then (k, v) :: (k', v') :: rest
      else if k = k' then (k, v) :: rest
      else (k', v') :: mapInsert k v rest

/-- Embeds `std::map::find`. -/
def mapFind {α : Type} (k : String) (l : List (String × α)) : Option α :=
  (l.find? (fun p => decide (p.1 = k))).map Prod.snd

/-- Embeds `ic_sim::Circuit` plus the node memory its members point into:
`components_` and `nodes_` are the key-sorted owned maps; `heap` holds the
`Node` objects that both `nodes_` and every component's terminal list
reference. -/
structure Circuit where
  name : String
  components : List (String × Component)
  nodes : List (String × ℕ)
  heap : Heap
deriving Repr, DecidableEq

/-- Embeds `Circuit::addComponent`: no-op on a null pointer or an empty id,
otherwise `components_[id] = component`. -/
def Circuit.addComponent (s : Circuit) (c : Option Component) : Circuit :=
  match c with
  | none => s
  | some comp =>
      if comp.id = "" then s
      else { s with components := mapInsert comp.id comp s.components }

/-- Embeds `Circuit::addNode`: no-op on a null pointer or an empty id, otherwise
`nodes_[id] = node`. -/
def Circuit.addNode (s : Circuit) (r : Option ℕ) : Circuit :=
  match r with
  | none => s
  | some ref =>
      match heapGet s.heap ref with
      | none => s
      | some n => if n.id = "" then s else { s with nodes := mapInsert n.id ref s.nodes }

/-- Embeds `Circuit::getComponent`: exact-id lookup, absent result when unknown. -/
def Circuit.getComponent (s : Circuit) (id : String) : Option Component :=
  mapFind id s.components

/-- Embeds `Circuit::getNode`. -/
def Circuit.getNode (s : Circuit) (id : String) : Option ℕ :=
  mapFind id s.nodes

/-- One iteration of the `Circuit::simulate` while-loop body: every owned
component (ascending id, the map order) is advanced by `timestep`, each
reading the same heap — which none of them writes. -/
def Circuit.stepAll (rexp : ℚ → ℚ) (s : Circuit) (dt : ℚ) : Circuit :=
  { s with components := s.components.map (fun p => (p.1, Component.simulate rexp s.heap dt p.2)) }

/-- Runs `k` iterations of the stepping loop body. -/
def Circuit.simulateN (rexp : ℚ → ℚ) (s : Circuit) (dt : ℚ) : ℕ → Circuit
  | 0 => s
  | k + 1 => Circuit.simulateN rexp (Circuit.stepAll rexp s dt) dt k

/-- The loop variable `time` after `k` iterations of `time += timestep`
starting from `0.0`, with the `double` accumulation idealized as exact
rational addition (IEEE-754 rounding, in particular absorption of small
increments, is not modelled). -/
def simTime (dt : ℚ) : ℕ → ℚ
  | 0 => 0
  | k + 1 => simTime dt k + dt

/-- Certificate that the `while (time < duration)` loop of the idealized
accumulator reaches the exit condition `time ≥ duration` at some iteration
count. It serves only to index terminating runs of `Circuit.simulate`; it
does not characterize the termination set of the IEEE-double loop, whose
accumulator can stall by absorption. -/
def loopTerminates (duration dt : ℚ) : Prop :=
  ∃ k, duration ≤ simTime dt k

instance (duration dt : ℚ) : DecidablePred (fun k => duration ≤ simTime dt k) :=
  fun _ => inferInstanceAs (Decidable (_ ≤ _))

/-- The number of loop iterations a terminating `simulate` call performs:
the first `k` at which the guard `time < duration` fails. -/
def exitSteps (duration dt : ℚ) (h : loopTerminates duration dt) : ℕ :=
  Nat.find h

/-- Embeds `Circuit::simulate(duration, timestep)` for a terminating run: the loop
body iterated up to the first failure of the guard. -/
def Circuit.simulate (rexp : ℚ → ℚ) (s : Circuit) (duration dt : ℚ)
    (h : loopTerminates duration dt) : Circuit :=
  Circuit.simulateN rexp s dt (exitSteps duration dt h)

/-- Embeds `Circuit::reset`: sets every owned node's voltage to 0; touches neither
`components_` nor any component's internal state. -/
def Circuit.reset (s : Circuit) : Circuit :=
  { s with heap := s.nodes.foldl (fun h p => heapSetVoltage h p.2 0) s.heap }

/-- Embeds the `ic_sim::BasePlugin` data members (plugin_system.h). The
subclass state mutated by the virtual `doInitialize`/`doCleanup` hooks is a
type parameter `σ`; `inited` is the `initialized_` flag. -/
structure BasePlugin (σ : Type) where
  name : String
  version : String
  description : String
  inited : Bool
  sub : σ
deriving Repr, DecidableEq

/-- Embeds `BasePlugin::initialize` (plugin_system.h lines 85-90):
`if (!initialized_) { initialized_ = doInitialize(); } return initialized_;`.
`doInit` is the subclass's `doInitialize` hook, modelled as a state
transformer on the subclass state returning its `bool` result. -/
def BasePlugin.initCall {σ : Type} (doInit : σ → Bool × σ) (p : BasePlugin σ) :
    Bool × BasePlugin σ :=
  if p.inited then (true, p)
  else
    let r := doInit p.sub
    (r.1, { p with inited := r.1, sub := r.2 })

/-- Embeds `BasePlugin::cleanup`: `if (initialized_) { doCleanup(); initialized_ = false; }`. -/
def BasePlugin.cleanupCall {σ : Type} (doClean : σ → σ) (p : BasePlugin σ) : BasePlugin σ :=
  if p.inited then { p with inited := false, sub := doClean p.sub } else p

/-- The observable behaviour of an `IPlugin` instance as `loadPlugin` uses
it: its self-reported name and the result of calling `initialize()` on the
fresh instance produced by the library's factory. -/
structure PluginInst where
  name : String
  initOk : Bool
deriving Repr, DecidableEq

/-- The behaviour of the native library at a given path, as observed by
`PluginManager::loadPlugin`: the `dlopen` result (`none` = open failure,
`some handle` otherwise), whether `dlsym "createPlugin"` succeeds, and what
the factory returns (`none` = null instance). -/
structure PluginLib where
  opens : Option ℕ
  hasCreateSym : Bool
  factoryResult : Option PluginInst
deriving Repr, DecidableEq

/-- Embeds the `PluginManager` registry state: `plugins_` and `plugin_handles_`. -/
structure PMState where
  plugins : List (String × PluginInst)
  handles : List (String × ℕ)
deriving Repr, DecidableEq

/-- Outcome of a `loadPlugin` call: the boolean result, the registry state
after the call, and the native handles closed (`CLOSE_LIBRARY`) during it. -/
structure LoadResult where
  ok : Bool
  state : PMState
  closed : List ℕ
deriving Repr, DecidableEq

/-- Embeds `PluginManager::loadPlugin` (plugin_system.cpp lines 32-74), translated
guard by guard: open failure, missing `createPlugin` symbol, null factory
result, and failed `initialize()` each return `false` without touching the
registry, closing the opened handle in the last three cases; on success the
plugin and handle are stored under the self-reported name. -/
def PluginManager.loadPlugin (s : PMState) (lib : PluginLib) : LoadResult :=
  match lib.opens with
  | none => ⟨false, s, []⟩
  | some h =>
      if !lib.hasCreateSym then ⟨false, s, [h]⟩
      else
        match lib.factoryResult with
        | none => ⟨false, s, [h]⟩
        | some p =>
            if !p.initOk then ⟨false, s, [h]⟩
            else ⟨true, ⟨mapInsert p.name p s.plugins, mapInsert p.name h s.handles⟩, []⟩

theorem mapFind_insert_self {α : Type} (k : String) (v : α) (l : List (String × α)) :
    mapFind k (mapInsert k v l) = some v := by
  induction l with
  | nil => simp [mapInsert, mapFind, List.find?]
  | cons hd tl ih =>
      obtain ⟨k', v'⟩ := hd
      by_cases h1 : k < k'
      · simp [mapInsert, h1, mapFind, List.find?]
      · by_cases h2 : k = k'
        · simp [mapInsert, h1, h2, mapFind, List.find?]
        · have hne : ¬ (k' = k) := fun h => h2 h.symm
          simp [mapInsert, h1, h2, mapFind, List.find?, hne] at ih ⊢
          exact ih

theorem stepAll_heap (rexp : ℚ → ℚ) (s : Circuit) (dt : ℚ) :
    (Circuit.stepAll rexp s dt).heap = s.heap := rfl

theorem stepAll_nodes (rexp : ℚ → ℚ) (s : Circuit) (dt : ℚ) :
    (Circuit.stepAll rexp s dt).nodes = s.nodes := rfl

theorem simulateN_heap (rexp : ℚ → ℚ) (dt : ℚ) :
    ∀ (k : ℕ) (s : Circuit), (Circuit.simulateN rexp s dt k).heap = s.heap := by
  intro k
  induction k with
  | zero => intro s; rfl
  | succ k ih => intro s; rw [Circuit.simulateN]; exact (ih _).trans rfl

theorem simulateN_nodes (rexp : ℚ → ℚ) (dt : ℚ) :
    ∀ (k : ℕ) (s : Circuit), (Circuit.simulateN rexp s dt k).nodes = s.nodes := by
  intro k
  induction k with
  | zero => intro s; rfl
  | succ k ih => intro s; rw [Circuit.simulateN]; exact (ih _).trans rfl

theorem simTime_eq (dt : ℚ) : ∀ k : ℕ, simTime dt k = k * dt := by
  intro k
  induction k with
  | zero => simp [simTime]
  | succ k ih => simp [simTime, ih]; ring

/-- General Resistor step law (helper): with at least two terminals the new
current is the terminal voltage difference over the resistance. -/
theorem resistor_sim (rexp : ℚ → ℚ) (hp : Heap) (dt : ℚ) (c : Component) (R I : ℚ)
    (hc : c.state = .resistor R I) (hn : 2 ≤ c.nodes.length) :
    (Component.simulate rexp hp dt c).state
        = .resistor R ((terminalVoltage hp c 0 - terminalVoltage hp c 1) / R) ∧
    (Component.simulate rexp hp dt c).getCurrentValue
        = (terminalVoltage hp c 0 - terminalVoltage hp c 1) / R := by
  rcases c with ⟨cid, ns, st⟩
  simp only at hc
  subst hc
  simp [Component.simulate, Component.getCurrentValue, hn]

/-- General Capacitor step law (helper). -/
theorem capacitor_sim (rexp : ℚ → ℚ) (hp : Heap) (dt : ℚ) (c : Component) (C Q V : ℚ)
    (hc : c.state = .capacitor C Q V) (hn : 2 ≤ c.nodes.length) :
    (Component.simulate rexp hp dt c).state
        = .capacitor C
            (Q + C * ((terminalVoltage hp c 0 - terminalVoltage hp c 1) - V) / dt * dt)
            (terminalVoltage hp c 0 - terminalVoltage hp c 1) ∧
    (Component.simulate rexp hp dt c).getCurrentValue
        = terminalVoltage hp c 0 - terminalVoltage hp c 1 := by
  rcases c with ⟨cid, ns, st⟩
  simp only at hc
  subst hc
  simp [Component.simulate, Component.getCurrentValue, hn]

/-- Example heap for the spec's Resistor test: two nodes at 5.0 V and 0.0 V. -/
def heapRes : Heap := [(0, ⟨"n1", 5, ["R1"]⟩), (1, ⟨"n2", 0, ["R1"]⟩)]

/-- Example 1 kΩ resistor attached to both nodes of `heapRes`. -/
def compRes : Component := ⟨"R1", [0, 1], .resistor 1000 0⟩

/-! ### Claims -/

/-- C4: for every component variant (Resistor, Capacitor, Inductor, Diode)
with fewer than two attached nodes, `simulate(dt)` is a complete no-op for
any `dt`: the whole component (id, node list, internal state) is unchanged
and no error is raised (the function is total). -/
theorem advance_noop_under_two_nodes (rexp : ℚ → ℚ) (hp : Heap) (dt : ℚ)
    (c : Component) (hn : c.nodes.length < 2) :
    Component.simulate rexp hp dt c = c := by
  have hn' : ¬ 2 ≤ c.nodes.length := Nat.not_le.mpr hn
  rcases c with ⟨cid, ns, st⟩
  cases st <;> simp_all [Component.simulate]

/-- Witness for C4: a one-terminal resistor is untouched by `simulate`. -/
theorem advance_noop_under_two_nodes_witness :
    Component.simulate (fun _ => 0) heapRes 1 ⟨"R1", [0], .resistor 1000 0⟩
      = ⟨"R1", [0], .resistor 1000 0⟩ :=
  advance_noop_under_two_nodes (fun _ => 0) heapRes 1 _ (by decide)

/-- C2: Resistor update law — for every resistor with at least two attached
nodes, after one `advance(dt)` (any `dt`, any `rexp`), `currentValue()`
equals `(node[0].voltage − node[1].voltage) / R`; in particular with
R = 1000 and node voltages 5.0 and 0.0 it equals 0.005 within 1e-9. -/
theorem resistor_update_law (rexp : ℚ → ℚ) (hp : Heap) (dt : ℚ) (c : Component) (R I : ℚ)
    (hc : c.state = .resistor R I) (hn : 2 ≤ c.nodes.length) :
    (Component.simulate rexp hp dt c).getCurrentValue
        = (terminalVoltage hp c 0 - terminalVoltage hp c 1) / R ∧
    |(Component.simulate rexp heapRes dt compRes).getCurrentValue - 5 / 1000|
        ≤ 1 / 10 ^ 9 := by
  refine ⟨(resistor_sim rexp hp dt c R I hc hn).2, ?_⟩
  have h5 : terminalVoltage heapRes compRes 0 = 5 := by decide
  have h0 : terminalVoltage heapRes compRes 1 = 0 := by decide
  have := (resistor_sim rexp heapRes dt compRes 1000 0 rfl (by decide)).2
  rw [this, h5, h0]
  norm_num

/-- Witness for C2 at the spec's concrete test point. -/
theorem resistor_update_law_witness :
    (Component.simulate (fun _ => 0) heapRes 1 compRes).getCurrentValue
        = (terminalVoltage heapRes compRes 0 - terminalVoltage heapRes compRes 1) / 1000 :=
  (resistor_update_law (fun _ => 0) heapRes 1 compRes 1000 0 rfl (by decide)).1

/-- C3: Capacitor update law — for every capacitor with at least two
attached nodes and `dt ≠ 0` (the `/dt` term is an unguarded
division), `advance(dt)` sets the stored voltage to
`Vc_new = node[0].voltage − node[1].voltage`, adds `C·(Vc_new − Vc)/dt · dt`
to the charge, and `currentValue()` afterwards returns the stored voltage
`Vc_new`, not the current. -/
theorem capacitor_update_law (rexp : ℚ → ℚ) (hp : Heap) (dt : ℚ) (c : Component) (C Q V : ℚ)
    (hc : c.state = .capacitor C Q V) (hn : 2 ≤ c.nodes.length) (_hdt : dt ≠ 0) :
    (Component.simulate rexp hp dt c).state
        = .capacitor C
            (Q + C * ((terminalVoltage hp c 0 - terminalVoltage hp c 1) - V) / dt * dt)
            (terminalVoltage hp c 0 - terminalVoltage hp c 1) ∧
    (Component.simulate rexp hp dt c).getCurrentValue
        = terminalVoltage hp c 0 - terminalVoltage hp c 1 :=
  capacitor_sim rexp hp dt c C Q V hc hn

/-- Witness for C3: a 1 µF capacitor across 5 V with dt = 1/1000. -/
theorem capacitor_update_law_witness :
    (Component.simulate (fun _ => 0) heapRes (1 / 1000)
        ⟨"C1", [0, 1], .capacitor (1 / 10 ^ 6) 0 0⟩).state
      = .capacitor (1 / 10 ^ 6)
          (0 + (1 / 10 ^ 6) * ((terminalVoltage heapRes ⟨"C1", [0, 1], .capacitor (1 / 10 ^ 6) 0 0⟩ 0
              - terminalVoltage heapRes ⟨"C1", [0, 1], .capacitor (1 / 10 ^ 6) 0 0⟩ 1) - 0)
            / (1 / 1000) * (1 / 1000))
          (terminalVoltage heapRes ⟨"C1", [0, 1], .capacitor (1 / 10 ^ 6) 0 0⟩ 0
              - terminalVoltage heapRes ⟨"C1", [0, 1], .capacitor (1 / 10 ^ 6) 0 0⟩ 1) :=
  (capacitor_update_law (fun _ => 0) heapRes (1 / 1000) _ (1 / 10 ^ 6) 0 0 rfl (by decide)
    (by norm_num)).1

/-- A `doInitialize` hook whose first call fails and whose second call
succeeds (subclass state `σ = Bool` records whether it was called before):
a legal override of the virtual hook, with observable state. -/
def flipDoInit : Bool → Bool × Bool := fun s => (s, true)

/-- A freshly loaded (uninitialized) `BasePlugin` over `flipDoInit`. -/
def pluginFlip : BasePlugin Bool := ⟨"ExamplePlugin", "1.0.0", "demo", false, false⟩

/-- C5 counterexample: `initialize()` is NOT idempotent on every state.
With the hook `flipDoInit`, the first `initialize()` returns `false`, and a
second call before any cleanup re-invokes the hook, changes the plugin
state, and returns `true` — not the cached result of the first call. -/
theorem initCall_not_idempotent :
    (BasePlugin.initCall flipDoInit pluginFlip).1 = false ∧
    (BasePlugin.initCall flipDoInit (BasePlugin.initCall flipDoInit pluginFlip).2).1 = true ∧
    (BasePlugin.initCall flipDoInit (BasePlugin.initCall flipDoInit pluginFlip).2).2
        ≠ (BasePlugin.initCall flipDoInit pluginFlip).2 := by
  refine ⟨rfl, rfl, ?_⟩
  decide

/-- C5 as amended: once `initialize()` has returned `true`, every further
call before cleanup is a no-op returning `true` (so the Loaded→Initialized
transition happens at most once before cleanup); and on an
already-initialized plugin `initialize()` returns `true` without invoking
`doInitialize`. After a failed call, however, a later call re-invokes
`doInitialize` instead of returning the cached failure. -/
theorem initCall_idempotent_after_success {σ : Type} (doInit : σ → Bool × σ)
    (p : BasePlugin σ) :
    (p.inited = true → BasePlugin.initCall doInit p = (true, p)) ∧
    ((BasePlugin.initCall doInit p).1 = true →
      BasePlugin.initCall doInit (BasePlugin.initCall doInit p).2
        = (true, (BasePlugin.initCall doInit p).2)) := by
  constructor
  · intro h
    simp [BasePlugin.initCall, h]
  · intro h
    by_cases hp : p.inited
    · simp [BasePlugin.initCall, hp]
    · simp [BasePlugin.initCall, hp] at h ⊢
      simp [h]

/-- Witness for C5's amended theorem: an initialized plugin and a
successfully initialized plugin are both fixed by further `initialize()`
calls. -/
theorem initCall_idempotent_after_success_witness :
    BasePlugin.initCall (fun s : Bool => (true, s)) ⟨"P", "1", "d", true, false⟩
        = (true, ⟨"P", "1", "d", true, false⟩) ∧
    BasePlugin.initCall (fun s : Bool => (true, s))
        (BasePlugin.initCall (fun s : Bool => (true, s)) ⟨"P", "1", "d", false, false⟩).2
      = (true, (BasePlugin.initCall (fun s : Bool => (true, s)) ⟨"P", "1", "d", false, false⟩).2) :=
  ⟨(initCall_idempotent_after_success (fun s : Bool => (true, s)) ⟨"P", "1", "d", true, false⟩).1 rfl,
   (initCall_idempotent_after_success (fun s : Bool => (true, s)) ⟨"P", "1", "d", false, false⟩).2 rfl⟩

/-- C7: `addComponent`/`addNode` tolerance and last-write-wins. Adding a
null reference or an entry with an empty id leaves the circuit's
collections unchanged (silent no-op); adding two entries under the same
non-empty id leaves exactly the last one retrievable under that id. -/
theorem circuit_add_tolerance_lww (s : Circuit) (c1 c2 : Component) (i : String)
    (r1 r2 : ℕ) (n1 n2 : Node) :
    Circuit.addComponent s none = s ∧
    (c1.id = "" → Circuit.addComponent s (some c1) = s) ∧
    Circuit.addNode s none = s ∧
    (heapGet s.heap r1 = some n1 → n1.id = "" → Circuit.addNode s (some r1) = s) ∧
    (c1.id = i → c2.id = i → i ≠ "" →
      Circuit.getComponent
        (Circuit.addComponent (Circuit.addComponent s (some c1)) (some c2)) i = some c2) ∧
    (heapGet s.heap r1 = some n1 → heapGet s.heap r2 = some n2 →
      n1.id = i → n2.id = i → i ≠ "" →
      Circuit.getNode (Circuit.addNode (Circuit.addNode s (some r1)) (some r2)) i = some r2) := by
  refine ⟨rfl, ?_, rfl, ?_, ?_, ?_⟩
  · intro h
    simp [Circuit.addComponent, h]
  · intro hg h
    simp [Circuit.addNode, hg, h]
  · intro h1 h2 hne
    simp [Circuit.addComponent, Circuit.getComponent, h1, h2, hne, mapFind_insert_self]
  · intro hg1 hg2 h1 h2 hne
    simp [Circuit.addNode, Circuit.getNode, hg1, hg2, h1, h2, hne, mapFind_insert_self]

/-- Witness for C7 on a concrete circuit: null add is a no-op and the
second of two same-id resistors wins. -/
theorem circuit_add_tolerance_lww_witness :
    Circuit.addComponent ⟨"c", [], [], []⟩ none = ⟨"c", [], [], []⟩ ∧
    Circuit.addComponent ⟨"c", [], [], []⟩ (some ⟨"", [], .resistor 1 0⟩) = ⟨"c", [], [], []⟩ ∧
    Circuit.getComponent
        (Circuit.addComponent (Circuit.addComponent ⟨"c", [], [], []⟩
          (some ⟨"R1", [], .resistor 1 0⟩)) (some ⟨"R1", [], .resistor 2 0⟩)) "R1"
      = some ⟨"R1", [], .resistor 2 0⟩ :=
  ⟨(circuit_add_tolerance_lww ⟨"c", [], [], []⟩ ⟨"", [], .resistor 1 0⟩
      ⟨"R1", [], .resistor 2 0⟩ "R1" 0 0 (Node.make "") (Node.make "")).1,
   (circuit_add_tolerance_lww ⟨"c", [], [], []⟩ ⟨"", [], .resistor 1 0⟩
      ⟨"R1", [], .resistor 2 0⟩ "R1" 0 0 (Node.make "") (Node.make "")).2.1 rfl,
   (circuit_add_tolerance_lww ⟨"c", [], [], []⟩ ⟨"R1", [], .resistor 1 0⟩
      ⟨"R1", [], .resistor 2 0⟩ "R1" 0 0 (Node.make "") (Node.make "")).2.2.2.2.1
     rfl rfl (by decide)⟩

theorem heapSetVoltage_cons (ar : ℕ) (an : Node) (t : Heap) (r' : ℕ) (v : ℚ) :
    heapSetVoltage ((ar, an) :: t) r' v
      = (if ar = r' then (ar, an.setVoltage v) else (ar, an)) :: heapSetVoltage t r' v := by
  by_cases h : ar = r' <;> simp [heapSetVoltage, h]

theorem heapGet_cons (ar : ℕ) (an : Node) (t : Heap) (r : ℕ) :
    heapGet ((ar, an) :: t) r = if ar = r then some an else heapGet t r := by
  by_cases h : ar = r <;> simp [heapGet, List.find?, h]

theorem heapVoltage_cons (ar : ℕ) (an : Node) (t : Heap) (r : ℕ) :
    heapVoltage ((ar, an) :: t) r = if ar = r then an.voltage else heapVoltage t r := by
  by_cases h : ar = r <;> simp [heapVoltage, heapGet_cons, h]

theorem heapVoltage_set_zero (h : Heap) (r : ℕ) :
    heapVoltage (heapSetVoltage h r 0) r = 0 := by
  induction h with
  | nil => rfl
  | cons a t ih =>
      obtain ⟨ar, an⟩ := a
      rw [heapSetVoltage_cons]
      by_cases ha : ar = r
      · simp [ha, heapVoltage_cons, Node.setVoltage]
      · simpa [ha, heapVoltage_cons] using ih

theorem heapVoltage_set_other (h : Heap) (r r' : ℕ) (v : ℚ) (hne : r ≠ r') :
    heapVoltage (heapSetVoltage h r' v) r = heapVoltage h r := by
  induction h with
  | nil => rfl
  | cons a t ih =>
      obtain ⟨ar, an⟩ := a
      rw [heapSetVoltage_cons]
      by_cases ha : ar = r'
      · have hne' : ¬ (r' = r) := fun hh => hne hh.symm
        simpa [ha, hne', heapVoltage_cons, Node.setVoltage] using ih
      · by_cases har : ar = r
        · simp [ha, har, hne, heapVoltage_cons]
        · simpa [ha, har, heapVoltage_cons] using ih

theorem heapVoltage_set_preserves_zero (h : Heap) (r r' : ℕ)
    (hz : heapVoltage h r = 0) : heapVoltage (heapSetVoltage h r' 0) r = 0 := by
  by_cases he : r = r'
  · subst he; exact heapVoltage_set_zero h r
  · rw [heapVoltage_set_other h r r' 0 he]; exact hz

theorem resetFold_zero :
    ∀ (L : List (String × ℕ)) (h : Heap) (r : ℕ),
      (r ∈ L.map Prod.snd ∨ heapVoltage h r = 0) →
      heapVoltage (L.foldl (fun hh p => heapSetVoltage hh p.2 0) h) r = 0 := by
  intro L
  induction L with
  | nil =>
      intro h r hr
      rcases hr with hr | hr
      · simp at hr
      · simpa using hr
  | cons a t ih =>
      intro h r hr
      simp only [List.foldl_cons]
      rcases hr with hr | hr
      · simp only [List.map_cons, List.mem_cons] at hr
        rcases hr with hr | hr
        · exact ih _ r (Or.inr (hr ▸ heapVoltage_set_zero h a.2))
        · exact ih _ r (Or.inl hr)
      · exact ih _ r (Or.inr (heapVoltage_set_preserves_zero h r a.2 hr))

theorem mapFind_mem_snd {α : Type} (k : String) (l : List (String × α)) (v : α)
    (hf : mapFind k l = some v) : v ∈ l.map Prod.snd := by
  simp only [mapFind, Option.map_eq_some'] at hf
  obtain ⟨pr, hpr, hv⟩ := hf
  exact hv ▸ List.mem_map_of_mem Prod.snd (List.mem_of_find?_eq_some hpr)

/-- C8: reset asymmetry. `Circuit.reset` sets every owned node's voltage to
0 and leaves the component map — hence every component's internal state and
`currentValue()` — untouched. -/
theorem circuit_reset_asymmetry (s : Circuit) :
    (Circuit.reset s).components = s.components ∧
    (∀ i, Circuit.getComponent (Circuit.reset s) i = Circuit.getComponent s i) ∧
    (∀ i c, Circuit.getComponent s i = some c →
      ((Circuit.reset s).getComponent i).elim 0 Component.getCurrentValue
        = c.getCurrentValue) ∧
    (∀ i r, Circuit.getNode s i = some r → heapVoltage (Circuit.reset s).heap r = 0) := by
  refine ⟨rfl, fun i => rfl, ?_, ?_⟩
  · intro i c hc
    have : (Circuit.reset s).getComponent i = some c := hc
    rw [this]
    rfl
  · intro i r hr
    exact resetFold_zero s.nodes s.heap r (Or.inl (mapFind_mem_snd i s.nodes r hr))

/-- Witness for C8 on a concrete one-resistor circuit with a 5 V node. -/
theorem circuit_reset_asymmetry_witness :
    (Circuit.reset ⟨"c", [("R1", compRes)], [("n1", 0), ("n2", 1)], heapRes⟩).components
        = [("R1", compRes)] ∧
    heapVoltage
        (Circuit.reset ⟨"c", [("R1", compRes)], [("n1", 0), ("n2", 1)], heapRes⟩).heap 0 = 0 :=
  ⟨(circuit_reset_asymmetry ⟨"c", [("R1", compRes)], [("n1", 0), ("n2", 1)], heapRes⟩).1,
   (circuit_reset_asymmetry ⟨"c", [("R1", compRes)], [("n1", 0), ("n2", 1)], heapRes⟩).2.2.2
     "n1" 0 (by decide)⟩

/-- C9: `loadPlugin` failure atomicity. The call fails exactly on the four
failure modes (library open failure, missing `createPlugin` symbol, null
factory result, failed `initialize()`); on every failure the registry and
handle maps are exactly as before and any opened native handle is among the
handles closed during the call. -/
theorem loadPlugin_failure_atomic (s : PMState) (lib : PluginLib) :
    ((PluginManager.loadPlugin s lib).ok = false ↔
      (lib.opens = none ∨ lib.hasCreateSym = false ∨ lib.factoryResult = none ∨
        (∃ p, lib.factoryResult = some p ∧ p.initOk = false))) ∧
    ((PluginManager.loadPlugin s lib).ok = false →
      (PluginManager.loadPlugin s lib).state = s ∧
      ∀ h, lib.opens = some h → h ∈ (PluginManager.loadPlugin s lib).closed) := by
  rcases lib with ⟨op, sym, fr⟩
  cases op with
  | none => simp [PluginManager.loadPlugin]
  | some h =>
      cases sym with
      | false => simp [PluginManager.loadPlugin]
      | true =>
          cases fr with
          | none => simp [PluginManager.loadPlugin]
          | some p =>
              rcases p with ⟨pn, ok⟩
              cases ok with
              | false => simp [PluginManager.loadPlugin]
              | true => simp [PluginManager.loadPlugin]

/-- Witness for C9: a library whose plugin fails to initialize leaves a
one-plugin registry untouched and closes the opened handle 7. -/
theorem loadPlugin_failure_atomic_witness :
    (PluginManager.loadPlugin ⟨[("A", ⟨"A", true⟩)], [("A", 3)]⟩
        ⟨some 7, true, some ⟨"B", false⟩⟩).ok = false ∧
    (PluginManager.loadPlugin ⟨[("A", ⟨"A", true⟩)], [("A", 3)]⟩
        ⟨some 7, true, some ⟨"B", false⟩⟩).state = ⟨[("A", ⟨"A", true⟩)], [("A", 3)]⟩ ∧
    7 ∈ (PluginManager.loadPlugin ⟨[("A", ⟨"A", true⟩)], [("A", 3)]⟩
        ⟨some 7, true, some ⟨"B", false⟩⟩).closed := by
  have hfail : (PluginManager.loadPlugin ⟨[("A", ⟨"A", true⟩)], [("A", 3)]⟩
      ⟨some 7, true, some ⟨"B", false⟩⟩).ok = false :=
    (loadPlugin_failure_atomic ⟨[("A", ⟨"A", true⟩)], [("A", 3)]⟩
        ⟨some 7, true, some ⟨"B", false⟩⟩).1.mpr
      (Or.inr (Or.inr (Or.inr ⟨⟨"B", false⟩, rfl, rfl⟩)))
  have hrest := (loadPlugin_failure_atomic ⟨[("A", ⟨"A", true⟩)], [("A", 3)]⟩
      ⟨some 7, true, some ⟨"B", false⟩⟩).2 hfail
  exact ⟨hfail, hrest.1, hrest.2 7 rfl⟩

/-- Concrete termination certificate: `simulate(0, 1)` exits at once. -/
def termZeroOne : loopTerminates 0 1 := ⟨0, by norm_num [simTime]⟩

/-- Example one-resistor circuit over `heapRes`. -/
def circEx : Circuit := ⟨"c", [("R1", compRes)], [("n1", 0), ("n2", 1)], heapRes⟩

/-- C1: `Circuit.simulate` never mutates any node. For every terminating
run, the node heap and the owned node map after the call equal those before
it, so every owned node's voltage is unchanged: component `simulate`
overrides only write the component's own state. -/
theorem simulate_preserves_node_voltages (rexp : ℚ → ℚ) (s : Circuit)
    (duration dt : ℚ) (h : loopTerminates duration dt) :
    (Circuit.simulate rexp s duration dt h).heap = s.heap ∧
    (Circuit.simulate rexp s duration dt h).nodes = s.nodes ∧
    ∀ i r, Circuit.getNode s i = some r →
      heapVoltage (Circuit.simulate rexp s duration dt h).heap r
        = heapVoltage s.heap r := by
  refine ⟨simulateN_heap rexp dt _ s, simulateN_nodes rexp dt _ s, ?_⟩
  intro i r _
  rw [Circuit.simulate, simulateN_heap]

/-- Witness for C1 on a concrete circuit and a concrete terminating run. -/
theorem simulate_preserves_node_voltages_witness :
    (Circuit.simulate (fun _ => 0) circEx 0 1 termZeroOne).heap = circEx.heap ∧
    heapVoltage (Circuit.simulate (fun _ => 0) circEx 0 1 termZeroOne).heap 0
      = heapVoltage circEx.heap 0 :=
  ⟨(simulate_preserves_node_voltages (fun _ => 0) circEx 0 1 termZeroOne).1,
   (simulate_preserves_node_voltages (fun _ => 0) circEx 0 1 termZeroOne).2.2
     "n1" 0 (by decide)⟩

end ICSim
